import Mathlib

/-!
Shallow embedding of `src/progressbar/__init__.py`, the `pb` streaming
progress-bar utility: size/count parsing (`buff_size_in_bytes`, `get_total`),
path validation (`check_filepaths`), chunked reading (`read_bytes`,
`read_lines`) and the orchestrating `run`, together with `format_size`.
Bytes are modelled as natural numbers, sources as lists of bytes, and the
external world (files and standard input) as an explicit record.
-/

namespace ProgressBar

/-- The character class `[0-9]` of the source's regexes (ASCII code points). -/
def isDigitChar (c : Char) : Bool := 48 ≤ c.toNat && c.toNat ≤ 57

/-- The character class `[a-z]` of the source's regexes, applied after
`str.lower()` (ASCII code points). -/
def isLowerChar (c : Char) : Bool := 97 ≤ c.toNat && c.toNat ≤ 122

/-- Python `str.lower()` on the ASCII range, as the source applies it before
matching (`self.buff_size.lower()`, `self.total.lower()`). -/
def lowerStr (s : String) : List Char := s.data.map Char.toLower

/-- The greedy `[0-9]+` prefix: maximal run of leading digits, and the rest. -/
def splitDigits : List Char → List Char × List Char
  | [] => ([], [])
  | c :: cs =>
    if isDigitChar c then
      let p := splitDigits cs
      (c :: p.1, p.2)
    else ([], c :: cs)

/-- `int(...)` on the digits matched by the `value` group. -/
def digitsToNat (ds : List Char) : Nat :=
  ds.foldl (fun a c => 10 * a + (c.toNat - 48)) 0

/-- `re.match('^(?P<value>[0-9]+)(?P<unit>[a-z]?)(b)?$', ...)` on an already
lowercased string: the numeric value and the unit letter (`none` when the
`unit` group is empty).  The optional `unit` group is greedy, so a lone
trailing `b` is consumed as the unit letter itself. -/
def matchBuffRegex (cs : List Char) : Option (Nat × Option Char) :=
  let p := splitDigits cs
  if p.1.isEmpty then none else
  match p.2 with
  | [] => some (digitsToNat p.1, none)
  | [c] => if isLowerChar c then some (digitsToNat p.1, some c) else none
  | [c, b] => if isLowerChar c && b == 'b' then some (digitsToNat p.1, some c) else none
  | _ => none

/-- `re.match('^(?P<value>[0-9]+)(?P<suffix>[a-z])?$', ...)` used by
`get_total`: at most one letter after the digits, no trailing `b` group. -/
def matchTotalRegex (cs : List Char) : Option (Nat × Option Char) :=
  let p := splitDigits cs
  if p.1.isEmpty then none else
  match p.2 with
  | [] => some (digitsToNat p.1, none)
  | [c] => if isLowerChar c then some (digitsToNat p.1, some c) else none
  | _ => none

/-- Lookup in `PBar.BYTE_SCALE` (`'' → 1, k → 1024, m → 1024², g → 1024³`). -/
def BYTE_SCALE (u : Option Char) : Option Nat :=
  match u with
  | none => some 1
  | some c =>
    if c = 'k' then some 1024
    else if c = 'm' then some (1024 * 1024)
    else if c = 'g' then some (1024 * 1024 * 1024)
    else none

/-- Lookup in `PBar.COUNT_SCALE`
(`'' → 1, k → 10³, m → 10⁶, b → 10⁹, g → 10⁹, t → 10¹²`). -/
def COUNT_SCALE (u : Option Char) : Option Nat :=
  match u with
  | none => some 1
  | some c =>
    if c = 'k' then some 1000
    else if c = 'm' then some 1000000
    else if c = 'b' then some 1000000000
    else if c = 'g' then some 1000000000
    else if c = 't' then some 1000000000000
    else none

/-- The two failure modes of `PBar.buff_size_in_bytes`. -/
inductive BuffErrKind
  | tooLarge
  | unrecognized
deriving DecidableEq, Repr

/-- Core of `PBar.buff_size_in_bytes` on the lowercased characters: table
lookup first, then the `{'g', 't', 'p'}` "too large" check, else
"unrecognized"; a failed regex match is also "unrecognized". -/
def buffParse (cs : List Char) : Except BuffErrKind Nat :=
  match matchBuffRegex cs with
  | none => .error .unrecognized
  | some (v, u) =>
    match BYTE_SCALE u with
    | some m => .ok (v * m)
    | none =>
      if u = some 'g' ∨ u = some 't' ∨ u = some 'p' then .error .tooLarge
      else .error .unrecognized

/-- The `ArgumentError`s the modelled code raises, each carrying the offending
string exactly as the source interpolates it into the message. -/
inductive PBErr
  | notAFile (path : String)
  | bufferTooLarge (size : String)
  | unrecognizedBuffer (size : String)
  | unrecognizedTotal (total : String)
deriving DecidableEq, Repr

/-- `PBar.buff_size_in_bytes`: the configured buffer-size string parsed over
`BYTE_SCALE`. -/
def buff_size_in_bytes (buff_size : String) : Except PBErr Nat :=
  match buffParse (lowerStr buff_size) with
  | .ok n => .ok n
  | .error .tooLarge => .error (.bufferTooLarge buff_size)
  | .error .unrecognized => .error (.unrecognizedBuffer buff_size)

/-- The `--total` parse inside `PBar.get_total`: both failure sites raise the
same `Unrecognized total` error, so failure is `none`. -/
def totalParse (cs : List Char) : Option Nat :=
  match matchTotalRegex cs with
  | none => none
  | some (v, u) =>
    match COUNT_SCALE u with
    | some m => some (v * m)
    | none => none

/-- The `-l, --lines` switch: `feed_mode` is `'bytes'` or `'lines'`. -/
inductive FeedMode
  | bytes
  | lines
deriving DecidableEq, Repr

/-- The external world the program touches: which paths name regular files,
each file's content, and standard input.  `os.path.getsize` of a regular
file is its content length. -/
structure FS where
  isFile : String → Bool
  contents : String → List Nat
  stdin : List Nat

/-- `PBar.get_size` (a cached `os.path.getsize`). -/
def get_size (fs : FS) (path : String) : Nat := (fs.contents path).length

/-- The fall-through of `PBar.get_total` when no truthy `--total` was given:
`None` without paths, the size sum in bytes mode, and the implicit `None` of
falling off the end in lines mode. -/
def get_total_default (paths : List String) (mode : FeedMode) (fs : FS) :
    Except PBErr (Option Nat) :=
  if paths = [] then .ok none
  else
    match mode with
    | .bytes => .ok (some ((paths.map (get_size fs)).sum))
    | .lines => .ok none

/-- `PBar.get_total`: a truthy `--total` string (non-empty, since `if
self.total:` treats `''` and `None` alike) is parsed with `COUNT_SCALE` and a
parse failure is fatal; otherwise the `get_total_default` fall-through. -/
def get_total (total : Option String) (paths : List String) (mode : FeedMode) (fs : FS) :
    Except PBErr (Option Nat) :=
  match total with
  | some t =>
    if t = "" then get_total_default paths mode fs
    else
      match totalParse (lowerStr t) with
      | some n => .ok (some n)
      | none => .error (.unrecognizedTotal t)
  | none => get_total_default paths mode fs

/-- The `['-']` special case of `PBar.check_filepaths`: a single `-` argument
becomes the no-path (standard input) case. -/
def effectivePaths (paths : List String) : List String :=
  if paths = ["-"] then [] else paths

/-- `PBar.check_filepaths`: every remaining path must be a regular file; the
loop raises `Not a file: ...` at the first offending path. -/
def check_filepaths (isFile : String → Bool) (paths : List String) : Except PBErr Unit :=
  match (effectivePaths paths).find? (fun p => !(isFile p)) with
  | some p => .error (.notAFile p)
  | none => .ok ()

/-- The loop `while buff := stream.read(bs):` on one source, with explicit
iteration fuel (each pass with `bs ≥ 1` consumes at least one byte, so fuel
equal to the source length is never exhausted). -/
def readChunksGo (bs : Nat) : Nat → List Nat → List (List Nat)
  | _, [] => []
  | 0, _ :: _ => []
  | fuel + 1, c :: cs =>
    if bs = 0 then [] else (c :: cs).take bs :: readChunksGo bs fuel ((c :: cs).drop bs)

/-- The chunks produced by `while buff := stream.read(bs):` on one source:
reads of up to `bs` bytes until a falsy (empty) read ends the loop; a read of
`0` bytes is empty at once, so the loop ends with nothing consumed. -/
def readChunks (bs : Nat) (l : List Nat) : List (List Nat) :=
  readChunksGo bs l.length l

/-- `PBar.read_bytes` as its trace: for each chunk in order, the forwarded
bytes and the `progress.update(size)` advance, `size = len(buff)`. -/
def read_bytes (bs : Nat) (srcs : List (List Nat)) : List (List Nat × Nat) :=
  srcs.flatMap fun c => (readChunks bs c).map fun chunk => (chunk, chunk.length)

/-- `buff.count(b'\n')`: the newline (byte 10) count of a chunk. -/
def countNewlines (chunk : List Nat) : Nat := chunk.count 10

/-- `PBar.read_lines` as its trace: for each chunk in order, the forwarded
bytes and the `progress.update(count)` advance, `count = buff.count(b'\n')`. -/
def read_lines (bs : Nat) (srcs : List (List Nat)) : List (List Nat × Nat) :=
  srcs.flatMap fun c => (readChunks bs c).map fun chunk => (chunk, countNewlines chunk)

/-- `PBar.read`: the stream method chosen by the feed mode. -/
def read (mode : FeedMode) : Nat → List (List Nat) → List (List Nat × Nat) :=
  match mode with
  | .bytes => read_bytes
  | .lines => read_lines

/-- `PBar.iter_stream`: standard input when no paths remain, else the files'
contents in argument order. -/
def sourcesOf (fs : FS) (paths : List String) : List (List Nat) :=
  if paths = [] then [fs.stdin] else paths.map fs.contents

/-- The options `PBar.run` consumes. -/
structure Opts where
  paths : List String
  feed_mode : FeedMode
  buff_size : String
  total : Option String

/-- `PBar.run`: validate the paths, compute the total (evaluated by the
`tqdm` constructor before any read), parse the buffer size (evaluated at the
first `stream.read`), then write every forwarded chunk to standard output in
order.  Any raised error aborts the run with no output written. -/
def run (o : Opts) (fs : FS) : Except PBErr (List Nat) :=
  match check_filepaths fs.isFile o.paths with
  | .error e => .error e
  | .ok _ =>
    match get_total o.total (effectivePaths o.paths) o.feed_mode fs with
    | .error e => .error e
    | .ok _ =>
      match buff_size_in_bytes o.buff_size with
      | .error e => .error e
      | .ok bs =>
        .ok (((read o.feed_mode bs (sourcesOf fs (effectivePaths o.paths))).map Prod.fst).flatten)

/-- The one failure mode of `PBar.format_size`: CPython raises
`OverflowError: integer division result too large for a float` from the first
`size /= 1024` when the quotient rounds beyond double range. -/
inductive PyFloatErr
  | overflow
deriving DecidableEq, Repr

/-- The smallest integer magnitude at which `size / 1024` (int → float true
division, correctly rounded, ties to even) overflows: the quotient rounds to
`2¹⁰²⁴` exactly when it is at least the midpoint `2¹⁰²⁴ − 2⁹⁷⁰` above the
largest double `2¹⁰²⁴ − 2⁹⁷¹`, i.e. when `|size| ≥ 1024·(2¹⁰²⁴ − 2⁹⁷⁰)`. -/
def OVERFLOW_BOUND : ℤ := 1024 * (2 ^ 1024 - 2 ^ 970)

/-- The float iterations of the `PBar.format_size` loop after the first
division, taken exactly over `ℚ`: dividing a double by `1024 = 2¹⁰` only
shifts its exponent (no rounding, no further overflow), and every
branch-deciding comparison happens at magnitudes below `1000·1024⁴ < 2⁵³`
where the scaled values divide exactly, so the float loop and this exact
model choose the same branch; the `f'...'` digit rendering is abstracted to
the scaled value itself, the unit suffix kept verbatim. -/
def format_size_go : ℚ → List String → ℚ × String
  | size, [] => (size, "PB")
  | size, u :: us => if |size| < 1000 then (size, u ++ "B") else format_size_go (size / 1024) us

/-- `PBar.format_size` on an integer byte count: the first comparison is
exact integer arithmetic, the first `size /= 1024` is the int → float
division which raises `OverflowError` at `OVERFLOW_BOUND` (the only raising
operation in the loop), and the remaining iterations are `format_size_go`.
Below the bound the correctly rounded first quotient selects the same
branches as the exact one, since every boundary-deciding magnitude is below
`2⁵³` and divides by `1024` exactly. -/
def format_size (size : ℤ) : Except PyFloatErr (ℚ × String) :=
  if |size| < 1000 then .ok ((size : ℚ), "B")
  else if OVERFLOW_BOUND ≤ |size| then .error .overflow
  else .ok (format_size_go ((size : ℚ) / 1024) ["K", "M", "G", "T"])

/-- A world with one byte (`97`) on standard input and no files. -/
def stdinWorld : FS := ⟨fun _ => false, fun _ => [], [97]⟩

/-- A world with nothing in it. -/
def emptyWorld : FS := ⟨fun _ => false, fun _ => [], []⟩

/-- A world where `a`, `b`, `c` are files of 100, 200 and 300 bytes. -/
def world600 : FS :=
  ⟨fun _ => true,
   fun p => if p = "a" then List.replicate 100 0
            else if p = "b" then List.replicate 200 0
            else List.replicate 300 0,
   []⟩

/-- A world where `a.txt` and `c.txt` are files but `missing.txt` is not. -/
def worldMissing : FS := ⟨fun p => p == "a.txt" || p == "c.txt", fun _ => [97], []⟩

deriving instance DecidableEq for Except

/-! ## Helper lemmas -/

/-- An ASCII lowercase letter is not a digit. -/
theorem lower_not_digit {c : Char} (h : isLowerChar c = true) : isDigitChar c = false := by
  rw [Bool.eq_false_iff]
  intro hd
  have h1 : 97 ≤ c.toNat ∧ c.toNat ≤ 122 := by simpa [isLowerChar] using h
  have h2 : 48 ≤ c.toNat ∧ c.toNat ≤ 57 := by simpa [isDigitChar] using hd
  omega

/-- `[0-9]+` consumes exactly a digit prefix followed by a non-digit. -/
theorem splitDigits_append (ds rest : List Char) (hds : ∀ d ∈ ds, isDigitChar d = true)
    (hrest : ∀ x, rest.head? = some x → isDigitChar x = false) :
    splitDigits (ds ++ rest) = (ds, rest) := by
  induction ds with
  | nil =>
    cases rest with
    | nil => rfl
    | cons c cs => simp [splitDigits, hrest c rfl]
  | cons d ds ih =>
    have hd := hds d (List.mem_cons_self d ds)
    have hrec := ih fun x hx => hds x (List.mem_cons_of_mem d hx)
    simp [splitDigits, hd, hrec]

/-- With a positive buffer size, fuel equal to the length never runs out and
the chunks concatenate back to the source. -/
theorem readChunksGo_flatten (bs : Nat) (hbs : 0 < bs) :
    ∀ (fuel : Nat) (l : List Nat), l.length ≤ fuel → (readChunksGo bs fuel l).flatten = l := by
  intro fuel
  induction fuel with
  | zero =>
    intro l hl
    cases l with
    | nil => rfl
    | cons c cs => simp at hl
  | succ fuel ih =>
    intro l hl
    cases l with
    | nil => rfl
    | cons c cs =>
      simp only [readChunksGo]
      rw [if_neg (Nat.pos_iff_ne_zero.mp hbs)]
      rw [List.flatten_cons, ih ((c :: cs).drop bs)
        (by simp only [List.length_drop, List.length_cons] at hl ⊢; omega)]
      exact List.take_append_drop bs (c :: cs)

/-- Round trip of the chunked read loop for a positive buffer size. -/
theorem readChunks_flatten (bs : Nat) (hbs : 0 < bs) (l : List Nat) :
    (readChunks bs l).flatten = l :=
  readChunksGo_flatten bs hbs l.length l le_rfl

/-- Element counts distribute over flattening. -/
theorem count_flatten_eq (a : Nat) (L : List (List Nat)) :
    L.flatten.count a = (L.map (List.count a)).sum := by
  induction L with
  | nil => rfl
  | cons x xs ih => simp [List.count_append, ih]

/-- Per-chunk counts over one source sum to the source's count. -/
theorem readChunks_count_sum (bs : Nat) (hbs : 0 < bs) (a : Nat) (l : List Nat) :
    ((readChunks bs l).map (List.count a)).sum = l.count a := by
  rw [← count_flatten_eq, readChunks_flatten bs hbs]

/-- In either feed mode, the forwarded components of the trace are exactly the
chunk stream. -/
theorem read_fst (mode : FeedMode) (bs : Nat) (srcs : List (List Nat)) :
    (read mode bs srcs).map Prod.fst = srcs.flatMap (readChunks bs) := by
  cases mode <;>
    induction srcs with
    | nil => rfl
    | cons c cs ih => simp_all [read, read_bytes, read_lines, List.flatMap_cons, Function.comp_def]

/-- Chunking each source and flattening everything restores the concatenation. -/
theorem flatMap_readChunks (bs : Nat) (hbs : 0 < bs) (srcs : List (List Nat)) :
    (srcs.flatMap (readChunks bs)).flatten = srcs.flatten := by
  induction srcs with
  | nil => rfl
  | cons c cs ih => simp [List.flatMap_cons, List.flatten_append, readChunks_flatten bs hbs, ih]

/-! ## Claims -/

/-- C2: buffer-size parsing over `BYTE_SCALE` gives `10M ↦ 10·1024²`,
`1K ↦ 1024`, a bare `5 ↦ 5`, rejects `10x` with a parse error, and unit
letters are case-insensitive (`10m` parses as `10M` does). -/
theorem claim_C2 :
    buff_size_in_bytes "10M" = Except.ok (10 * 1024 * 1024) ∧
    buff_size_in_bytes "1K" = Except.ok 1024 ∧
    buff_size_in_bytes "5" = Except.ok 5 ∧
    buff_size_in_bytes "10x" = Except.error (PBErr.unrecognizedBuffer "10x") ∧
    buff_size_in_bytes "10m" = buff_size_in_bytes "10M" :=
  ⟨rfl, rfl, rfl, rfl, rfl⟩

/-- C3 counterexample: the trailing-`b` suffix rule does not extend to the
`--total` parse — `2m` parses to `2·10⁶` but `2mb` is rejected, because the
`get_total` regex has no trailing-`b` group. -/
theorem claim_C3_cex :
    get_total (some "2m") [] FeedMode.bytes emptyWorld = Except.ok (some 2000000) ∧
    get_total (some "2mb") [] FeedMode.bytes emptyWorld =
      Except.error (PBErr.unrecognizedTotal "2mb") :=
  ⟨rfl, rfl⟩

/-- C3 amended: for the buffer-size parse only, appending a literal `b` after
a unit letter preserves the result (`digits·u·b` parses as `digits·u`, whether
that is a value or an error), and a lone trailing `b` is consumed as the unit
letter itself, which `BYTE_SCALE` rejects; the `--total` parse accepts no
trailing `b` after a unit letter, while a lone trailing `b` is the count unit
`b = 10⁹`. -/
theorem claim_C3 :
    ∀ (ds : List Char) (c : Char), ds ≠ [] → (∀ d ∈ ds, isDigitChar d = true) →
      isLowerChar c = true →
      (buffParse (ds ++ [c, 'b']) = buffParse (ds ++ [c]) ∧
       buffParse (ds ++ ['b']) = Except.error BuffErrKind.unrecognized ∧
       totalParse (ds ++ [c, 'b']) = none ∧
       totalParse (ds ++ ['b']) = some (digitsToNat ds * 1000000000)) := by
  intro ds c hne hds hc
  have hcd : isDigitChar c = false := lower_not_digit hc
  have hbl : isLowerChar 'b' = true := by decide
  have hbd : isDigitChar 'b' = false := by decide
  have hemp : ds.isEmpty = false := by
    cases ds with
    | nil => exact absurd rfl hne
    | cons d ds => rfl
  have h2 : splitDigits (ds ++ [c, 'b']) = (ds, [c, 'b']) :=
    splitDigits_append ds [c, 'b'] hds (by intro x hx; cases hx; exact hcd)
  have h1 : splitDigits (ds ++ [c]) = (ds, [c]) :=
    splitDigits_append ds [c] hds (by intro x hx; cases hx; exact hcd)
  have hb : splitDigits (ds ++ ['b']) = (ds, ['b']) :=
    splitDigits_append ds ['b'] hds (by intro x hx; cases hx; exact hbd)
  have hm2 : matchBuffRegex (ds ++ [c, 'b']) = some (digitsToNat ds, some c) := by
    unfold matchBuffRegex
    rw [h2]
    simp [hemp, hc]
  have hm1 : matchBuffRegex (ds ++ [c]) = some (digitsToNat ds, some c) := by
    unfold matchBuffRegex
    rw [h1]
    simp [hemp, hc]
  have hmb : matchBuffRegex (ds ++ ['b']) = some (digitsToNat ds, some 'b') := by
    unfold matchBuffRegex
    rw [hb]
    simp [hemp, hbl]
  have htb : matchTotalRegex (ds ++ ['b']) = some (digitsToNat ds, some 'b') := by
    unfold matchTotalRegex
    rw [hb]
    simp [hemp, hbl]
  have ht2 : matchTotalRegex (ds ++ [c, 'b']) = none := by
    unfold matchTotalRegex
    rw [h2]
    simp [hemp]
  refine ⟨?_, ?_, ?_, ?_⟩
  · unfold buffParse
    rw [hm2, hm1]
  · unfold buffParse
    rw [hmb]
    rfl
  · unfold totalParse
    rw [ht2]
  · unfold totalParse
    rw [htb]
    rfl

/-- C3 witness: the amended statement at `ds = ['1']`, `c = 'm'`. -/
theorem claim_C3_witness :
    buffParse (['1'] ++ ['m', 'b']) = buffParse (['1'] ++ ['m']) ∧
    buffParse (['1'] ++ ['b']) = Except.error BuffErrKind.unrecognized ∧
    totalParse (['1'] ++ ['m', 'b']) = none ∧
    totalParse (['1'] ++ ['b']) = some (digitsToNat ['1'] * 1000000000) :=
  claim_C3 ['1'] 'm' (by decide) (by decide) (by decide)

/-- C4: an explicit `--total` is parsed with `COUNT_SCALE` regardless of
paths, mode or the file system (`2b ↦ 2·10⁹`, `3t ↦ 3·10¹²`, and `g` is an
alternate billion, `2g ↦ 2·10⁹`); and when the paths check out but the
`--total` parse fails, the whole run fails with that error — nothing is
streamed and no default is substituted. -/
theorem claim_C4 :
    (∀ (paths : List String) (mode : FeedMode) (fs : FS),
      get_total (some "2b") paths mode fs = Except.ok (some 2000000000) ∧
      get_total (some "3t") paths mode fs = Except.ok (some 3000000000000) ∧
      get_total (some "2g") paths mode fs = Except.ok (some 2000000000)) ∧
    (∀ (o : Opts) (fs : FS) (e : PBErr),
      check_filepaths fs.isFile o.paths = Except.ok () →
      get_total o.total (effectivePaths o.paths) o.feed_mode fs = Except.error e →
      run o fs = Except.error e) := by
  constructor
  · intro paths mode fs
    exact ⟨rfl, rfl, rfl⟩
  · intro o fs e hcheck htot
    simp [run, hcheck, htot]

/-- C4 witness: the malformed total `xx` fails a run over standard input. -/
theorem claim_C4_witness :
    run ⟨[], FeedMode.bytes, "10M", some "xx"⟩ emptyWorld =
      Except.error (PBErr.unrecognizedTotal "xx") :=
  claim_C4.2 ⟨[], FeedMode.bytes, "10M", some "xx"⟩ emptyWorld
    (PBErr.unrecognizedTotal "xx") rfl rfl

/-- C6: with no `--total` override, bytes mode over file paths totals the sum
of the file sizes, lines mode over file paths leaves the total unknown, and
the no-path (standard input) case leaves it unknown in either mode. -/
theorem claim_C6 :
    (∀ (fs : FS) (paths : List String), paths ≠ [] →
      get_total none paths FeedMode.bytes fs =
        Except.ok (some ((paths.map (get_size fs)).sum)) ∧
      get_total none paths FeedMode.lines fs = Except.ok none) ∧
    (∀ (fs : FS) (mode : FeedMode), get_total none [] mode fs = Except.ok none) := by
  constructor
  · intro fs paths hne
    constructor <;> simp [get_total, get_total_default, hne]
  · intro fs mode
    cases mode <;> rfl

/-- C6 witness: files of 100, 200 and 300 bytes give total 600 in bytes mode
and an unknown total in lines mode. -/
theorem claim_C6_witness :
    get_total none ["a", "b", "c"] FeedMode.bytes world600 = Except.ok (some 600) ∧
    get_total none ["a", "b", "c"] FeedMode.lines world600 = Except.ok none :=
  claim_C6.1 world600 ["a", "b", "c"] (by decide)

/-- C7: whenever some path is not a regular file, the run fails with an error
naming the first such path; `check_filepaths` runs before any source is
opened, so the failing run produces no output (`run` returns the error and
an empty write stream). -/
theorem claim_C7 :
    ∀ (o : Opts) (fs : FS) (p : String),
      (effectivePaths o.paths).find? (fun q => !(fs.isFile q)) = some p →
      run o fs = Except.error (PBErr.notAFile p) := by
  intro o fs p hfind
  have hc : check_filepaths fs.isFile o.paths = Except.error (PBErr.notAFile p) := by
    unfold check_filepaths
    rw [hfind]
  simp [run, hc]

/-- C7 witness: with `a.txt` existing and `missing.txt` absent, the run fails
naming `missing.txt` and emits nothing. -/
theorem claim_C7_witness :
    run ⟨["a.txt", "missing.txt", "c.txt"], FeedMode.bytes, "10M", none⟩ worldMissing =
      Except.error (PBErr.notAFile "missing.txt") :=
  claim_C7 ⟨["a.txt", "missing.txt", "c.txt"], FeedMode.bytes, "10M", none⟩ worldMissing
    "missing.txt" (by decide)

/-- C8 (code-bug evaluation): the configured buffer size `0` is not rejected —
`buff_size_in_bytes` returns `0` for `"0"` and `"0k"` — and a run over an
existing one-byte file with buffer size `0` succeeds while writing nothing,
because `stream.read(0)` is falsy and ends the read loop at once. -/
theorem claim_C8 :
    buff_size_in_bytes "0" = Except.ok 0 ∧
    buff_size_in_bytes "0k" = Except.ok 0 ∧
    run ⟨["a.txt"], FeedMode.bytes, "0", none⟩ worldMissing = Except.ok [] :=
  ⟨rfl, rfl, rfl⟩

/-- C1 (code-bug evaluation): whenever the configured buffer size parses to a
positive value, every successful run writes exactly the concatenation of the
sources' contents in argument order — in lines mode as well as bytes mode the
chunk bytes are forwarded unmodified; but the accepted buffer size `"0"`
gives a successful run that writes nothing even though standard input holds a
byte, violating the unconditional claim. -/
theorem claim_C1 :
    (∀ (o : Opts) (fs : FS) (bs : Nat) (out : List Nat),
        buff_size_in_bytes o.buff_size = Except.ok bs → 0 < bs →
        run o fs = Except.ok out →
        out = (sourcesOf fs (effectivePaths o.paths)).flatten) ∧
    (run ⟨[], FeedMode.bytes, "0", none⟩ stdinWorld = Except.ok [] ∧
      stdinWorld.stdin = [97]) := by
  constructor
  · intro o fs bs out hbuff hpos hrun
    unfold run at hrun
    cases hc : check_filepaths fs.isFile o.paths with
    | error e => rw [hc] at hrun; exact absurd hrun (by simp)
    | ok u =>
      rw [hc] at hrun
      cases ht : get_total o.total (effectivePaths o.paths) o.feed_mode fs with
      | error e => rw [ht] at hrun; exact absurd hrun (by simp)
      | ok t =>
        rw [ht, hbuff] at hrun
        have hout :
            ((read o.feed_mode bs (sourcesOf fs (effectivePaths o.paths))).map Prod.fst).flatten
              = out := by
          exact Except.ok.inj hrun
        rw [← hout, read_fst, flatMap_readChunks bs hpos]
  · exact ⟨rfl, rfl⟩

/-- C1 witness: the round trip at buffer size 1 over standard input. -/
theorem claim_C1_witness :
    ([97] : List Nat) = (sourcesOf stdinWorld (effectivePaths ([] : List String))).flatten :=
  claim_C1.1 ⟨[], FeedMode.bytes, "1", none⟩ stdinWorld 1 [97] rfl (by decide) rfl

/-- C5: the lines-mode advance of each chunk is its newline count — the bytes
`a\nb\nc` count 2, not 3; the advances over a whole run sum to the newline
count of the concatenated input (so a chunk boundary splitting a line never
double counts); and a final byte that is not a newline never adds a count
(an unterminated last line is not counted). -/
theorem claim_C5 :
    countNewlines [97, 10, 98, 10, 99] = 2 ∧
    (∀ (bs : Nat) (srcs : List (List Nat)) (p : List Nat × Nat),
      p ∈ read_lines bs srcs → p.2 = countNewlines p.1) ∧
    (∀ (bs : Nat) (srcs : List (List Nat)), 0 < bs →
      ((read_lines bs srcs).map Prod.snd).sum = countNewlines srcs.flatten) ∧
    (∀ (l : List Nat) (b : Nat), b ≠ 10 → countNewlines (l ++ [b]) = countNewlines l) := by
  refine ⟨rfl, ?_, ?_, ?_⟩
  · intro bs srcs p hp
    simp only [read_lines, List.mem_flatMap, List.mem_map] at hp
    obtain ⟨c, hcsrc, chunk, hchunk, hpe⟩ := hp
    rw [← hpe]
  · intro bs srcs hbs
    induction srcs with
    | nil => rfl
    | cons c cs ih =>
      simp only [read_lines, List.flatMap_cons, List.map_append, List.sum_append,
        List.flatten_cons, List.map_map]
      simp only [read_lines] at ih
      rw [ih]
      have hsnd : (Prod.snd ∘ fun chunk : List Nat => (chunk, countNewlines chunk))
          = List.count 10 := rfl
      rw [hsnd, readChunks_count_sum bs hbs]
      simp only [countNewlines]
      rw [List.count_append]
  · intro l b hb
    have hbe : (b == 10) = false := by simpa using hb
    simp [countNewlines, List.count_append, List.count_cons, hbe]

/-- C5 witness: the summed advances over one source at buffer size 1. -/
theorem claim_C5_witness :
    ((read_lines 1 [[97, 10]]).map Prod.snd).sum
      = countNewlines ([[97, 10]] : List (List Nat)).flatten :=
  claim_C5.2.2.1 1 [[97, 10]] (by decide)

/-- Unfolding of `buffParse` past a successful regex match. -/
theorem buffParse_matched (cs : List Char) (v : Nat) (u : Option Char)
    (hm : matchBuffRegex cs = some (v, u)) :
    buffParse cs =
      match BYTE_SCALE u with
      | some m => Except.ok (v * m)
      | none =>
        if u = some 'g' ∨ u = some 't' ∨ u = some 'p' then Except.error BuffErrKind.tooLarge
        else Except.error BuffErrKind.unrecognized := by
  unfold buffParse
  rw [hm]

/-- Unfolding of `buffParse` past a match whose unit is outside `BYTE_SCALE`. -/
theorem buffParse_matched_none (cs : List Char) (v : Nat) (u : Option Char)
    (hm : matchBuffRegex cs = some (v, u)) (hsc : BYTE_SCALE u = none) :
    buffParse cs =
      if u = some 'g' ∨ u = some 't' ∨ u = some 'p' then Except.error BuffErrKind.tooLarge
      else Except.error BuffErrKind.unrecognized := by
  rw [buffParse_matched cs v u hm, hsc]

/-- C9: the buffer-size parse accepts `g` as `1024³` (`2g ↦ 2·1024³`); for any
matched input, the `Buffer size too large` branch fires exactly when the unit
letter is `t` or `p`, and any unit in `BYTE_SCALE` returns its scaled value,
so the too-large branch is unreachable for byte-table suffixes. -/
theorem claim_C9 :
    buff_size_in_bytes "2g" = Except.ok (2 * (1024 * 1024 * 1024)) ∧
    (∀ (cs : List Char) (v : Nat) (u : Option Char),
      matchBuffRegex cs = some (v, u) →
      (buffParse cs = Except.error BuffErrKind.tooLarge ↔ (u = some 't' ∨ u = some 'p'))) ∧
    (∀ (cs : List Char) (v : Nat) (u : Option Char) (m : Nat),
      matchBuffRegex cs = some (v, u) → BYTE_SCALE u = some m →
      buffParse cs = Except.ok (v * m)) := by
  refine ⟨rfl, ?_, ?_⟩
  · intro cs v u hm
    rcases u with _ | c
    · rw [buffParse_matched cs v none hm]
      exact iff_of_false (fun h => Except.noConfusion h) (by decide)
    · by_cases h1 : c = 'k'
      · subst h1
        rw [buffParse_matched cs v (some 'k') hm]
        exact iff_of_false (fun h => Except.noConfusion h) (by decide)
      · by_cases h2 : c = 'm'
        · subst h2
          rw [buffParse_matched cs v (some 'm') hm]
          exact iff_of_false (fun h => Except.noConfusion h) (by decide)
        · by_cases h3 : c = 'g'
          · subst h3
            rw [buffParse_matched cs v (some 'g') hm]
            exact iff_of_false (fun h => Except.noConfusion h) (by decide)
          · have hbsc : BYTE_SCALE (some c) = none := by
              simp [BYTE_SCALE, h1, h2, h3]
            rw [buffParse_matched_none cs v (some c) hm hbsc]
            by_cases h4 : c = 't'
            · subst h4
              rw [if_pos (by decide)]
              exact iff_of_true rfl (by decide)
            · by_cases h5 : c = 'p'
              · subst h5
                rw [if_pos (by decide)]
                exact iff_of_true rfl (by decide)
              · rw [if_neg (by simp [h3, h4, h5])]
                exact iff_of_false
                  (fun h => BuffErrKind.noConfusion (Except.error.inj h)) (by simp [h4, h5])
  · intro cs v u m hm hsc
    rw [buffParse_matched cs v u hm, hsc]

/-- C9 witness: the too-large branch at the concrete matched unit `t`. -/
theorem claim_C9_witness :
    buffParse ['3', 't'] = Except.error BuffErrKind.tooLarge :=
  (claim_C9.2.1 ['3', 't'] 3 (some 't') (by decide)).mpr (by decide)

/-- C10 counterexample: at `10³¹²` — above the overflow bound of the first
int → float `size /= 1024` — the real loop raises `OverflowError` instead of
returning, and `10³¹²` is far above `1000·1024⁴`, so `format_size` is neither
total over every integer nor `PB`-suffixed on all inputs of magnitude at
least `1000·1024⁴`. -/
theorem claim_C10_cex :
    format_size (10 ^ 312) = Except.error PyFloatErr.overflow ∧
    (1099511627776000 : ℤ) ≤ |(10 : ℤ) ^ 312| := by
  have habs10 : |(10 : ℤ) ^ 312| = 10 ^ 312 := abs_of_nonneg (by positivity)
  constructor
  · unfold format_size
    rw [habs10, if_neg (by norm_num), if_pos (by norm_num [OVERFLOW_BOUND])]
  · rw [habs10]
    norm_num

/-- C10 amended: `format_size` returns a string exactly for integer inputs of
magnitude below the float-overflow bound `1024·(2¹⁰²⁴ − 2⁹⁷⁰)` of the first
`size /= 1024`, raising `OverflowError` at and above it; every returned
suffix is one of `B`, `KB`, `MB`, `GB`, `TB`, `PB`; and the fallback
commented `should never be here` is reached exactly for magnitudes from
`1000·1024⁴` up to the overflow bound — in particular it is reachable. -/
theorem claim_C10 :
    (∀ z : ℤ,
      (format_size z = Except.error PyFloatErr.overflow ↔ OVERFLOW_BOUND ≤ |z|) ∧
      ((format_size z).map Prod.snd = Except.ok "PB" ↔
        (1099511627776000 ≤ |z| ∧ |z| < OVERFLOW_BOUND)) ∧
      ((format_size z).map Prod.snd = Except.ok "B" ∨
       (format_size z).map Prod.snd = Except.ok "KB" ∨
       (format_size z).map Prod.snd = Except.ok "MB" ∨
       (format_size z).map Prod.snd = Except.ok "GB" ∨
       (format_size z).map Prod.snd = Except.ok "TB" ∨
       (format_size z).map Prod.snd = Except.ok "PB" ∨
       format_size z = Except.error PyFloatErr.overflow)) ∧
    (format_size 1099511627776000).map Prod.snd = Except.ok "PB" := by
  constructor
  · intro z
    have habs : ∀ x : ℚ, |x / 1024| = |x| / 1024 := fun x => by
      rw [abs_div]
      norm_num
    have hOB : (1099511627776000 : ℤ) < OVERFLOW_BOUND := by norm_num [OVERFLOW_BOUND]
    unfold format_size
    split_ifs with h1 hov
    · exact ⟨iff_of_false not_false fun hc => by linarith,
        iff_of_false
          (fun h => absurd (show ("B" : String) = "PB" from Except.ok.inj h) (by decide))
          fun hc => by have := hc.1; linarith,
        Or.inl rfl⟩
    · exact ⟨iff_of_true rfl hov,
        iff_of_false (fun h => Except.noConfusion h)
          fun hc => absurd hc.2 (not_lt.mpr hov),
        Or.inr (Or.inr (Or.inr (Or.inr (Or.inr (Or.inr rfl)))))⟩
    · have hlt : |z| < OVERFLOW_BOUND := not_le.mp hov
      have hnov : ¬ OVERFLOW_BOUND ≤ |z| := not_le.mpr hlt
      simp only [format_size_go]
      split_ifs with g1 g2 g3 g4
      · rw [habs, div_lt_iff₀ (by norm_num : (0:ℚ) < 1024)] at g1
        have hz1 : |z| < 1024000 := by
          have hq : |(z : ℚ)| < ((1024000 : ℤ) : ℚ) := by push_cast; linarith
          rw [← Int.cast_abs] at hq
          exact_mod_cast hq
        exact ⟨iff_of_false not_false hnov,
          iff_of_false
            (fun h => absurd (show ("K" ++ "B" : String) = "PB" from Except.ok.inj h) (by decide))
            fun hc => by have := hc.1; linarith,
          Or.inr (Or.inl rfl)⟩
      · rw [habs, habs, div_div,
          div_lt_iff₀ (by norm_num : (0:ℚ) < 1024 * 1024)] at g2
        have hz2 : |z| < 1048576000 := by
          have hq : |(z : ℚ)| < ((1048576000 : ℤ) : ℚ) := by push_cast; linarith
          rw [← Int.cast_abs] at hq
          exact_mod_cast hq
        exact ⟨iff_of_false not_false hnov,
          iff_of_false
            (fun h => absurd (show ("M" ++ "B" : String) = "PB" from Except.ok.inj h) (by decide))
            fun hc => by have := hc.1; linarith,
          Or.inr (Or.inr (Or.inl rfl))⟩
      · rw [habs, habs, habs, div_div, div_div,
          div_lt_iff₀ (by norm_num : (0:ℚ) < 1024 * (1024 * 1024))] at g3
        have hz3 : |z| < 1073741824000 := by
          have hq : |(z : ℚ)| < ((1073741824000 : ℤ) : ℚ) := by push_cast; linarith
          rw [← Int.cast_abs] at hq
          exact_mod_cast hq
        exact ⟨iff_of_false not_false hnov,
          iff_of_false
            (fun h => absurd (show ("G" ++ "B" : String) = "PB" from Except.ok.inj h) (by decide))
            fun hc => by have := hc.1; linarith,
          Or.inr (Or.inr (Or.inr (Or.inl rfl)))⟩
      · rw [habs, habs, habs, habs, div_div, div_div, div_div,
          div_lt_iff₀ (by norm_num : (0:ℚ) < 1024 * (1024 * (1024 * 1024)))] at g4
        have hz4 : |z| < 1099511627776000 := by
          have hq : |(z : ℚ)| < ((1099511627776000 : ℤ) : ℚ) := by push_cast; linarith
          rw [← Int.cast_abs] at hq
          exact_mod_cast hq
        exact ⟨iff_of_false not_false hnov,
          iff_of_false
            (fun h => absurd (show ("T" ++ "B" : String) = "PB" from Except.ok.inj h) (by decide))
            fun hc => by have := hc.1; linarith,
          Or.inr (Or.inr (Or.inr (Or.inr (Or.inl rfl))))⟩
      · rw [habs, habs, habs, habs, not_lt, div_div, div_div, div_div,
          le_div_iff₀ (by norm_num : (0:ℚ) < 1024 * (1024 * (1024 * 1024)))] at g4
        have hq : (1099511627776000 : ℚ) ≤ |(z : ℚ)| := by linarith
        have hz : (1099511627776000 : ℤ) ≤ |z| := by
          rw [← Int.cast_abs] at hq
          exact_mod_cast hq
        exact ⟨iff_of_false not_false hnov,
          iff_of_true rfl ⟨hz, hlt⟩,
          Or.inr (Or.inr (Or.inr (Or.inr (Or.inr (Or.inl rfl)))))⟩
  · have habsl : |(1099511627776000 : ℤ)| = 1099511627776000 := abs_of_nonneg (by norm_num)
    have h : format_size 1099511627776000
        = Except.ok (format_size_go (((1099511627776000 : ℤ) : ℚ) / 1024)
            ["K", "M", "G", "T"]) := by
      unfold format_size
      rw [habsl, if_neg (by norm_num), if_neg (by norm_num [OVERFLOW_BOUND])]
    rw [h]
    norm_num [format_size_go, Except.map]

/-- C10 witness: the suffix disjunction of the amended claim at a concrete
small input. -/
theorem claim_C10_witness :
    (format_size 512).map Prod.snd = Except.ok "B" ∨
    (format_size 512).map Prod.snd = Except.ok "KB" ∨
    (format_size 512).map Prod.snd = Except.ok "MB" ∨
    (format_size 512).map Prod.snd = Except.ok "GB" ∨
    (format_size 512).map Prod.snd = Except.ok "TB" ∨
    (format_size 512).map Prod.snd = Except.ok "PB" ∨
    format_size 512 = Except.error PyFloatErr.overflow :=
  (claim_C10.1 512).2.2

end ProgressBar
